import Mathlib

set_option maxRecDepth 4000

/-!
Verification development for src/generate_loan_portfolio.py.

The generator is embedded shallowly: numpy's seeded pseudo-random
generator becomes an abstract deterministic state machine (`RandOps`),
whose draw operations satisfy the documented numpy contracts
(`RandSpec`).  Dates are embedded as integer day numbers with the fixed
reference date datetime(2025, 1, 1) as day 0, so that
`today - timedelta(days=d)` becomes `today - d` and date-only
truncation (lines 148-150 of the source) is the identity.  Floating
point values are embedded as exact rationals.
-/

/-- Segment values drawn on line 25 of the source from the array
["Retail", "SME", "Corporate"]. -/
inductive Segment
  | Retail
  | SME
  | Corporate
deriving DecidableEq

/-- Country values drawn on line 28 from ["DE", "FR", "IT", "ES", "NL"]. -/
inductive Country
  | DE
  | FR
  | IT
  | ES
  | NL
deriving DecidableEq

/-- Currency values drawn on line 42 from ["EUR", "USD", "GBP"]. -/
inductive Currency
  | EUR
  | USD
  | GBP
deriving DecidableEq

/-- Abstract deterministic pseudo-random source over a state type.
Each field embeds one kind of numpy draw used by the generator; one
draw consumes the state and returns the next state, so a fixed seed
fixes the whole stream. -/
structure RandOps (sigma : Type) where
  /-- np.random.default_rng(seed), line 17: the initial state from the seed. -/
  init : Int → sigma
  /-- rng.integers(low, high): one draw from the half-open range [low, high). -/
  intStep : Int → Int → sigma → Int × sigma
  /-- rng.uniform(low, high): one draw from the half-open interval [low, high). -/
  unifStep : ℚ → ℚ → sigma → ℚ × sigma
  /-- rng.normal(mu, s): one unconstrained draw. -/
  normStep : ℚ → ℚ → sigma → ℚ × sigma
  /-- rng.beta(a, b): one draw in the unit interval. -/
  betaStep : ℚ → ℚ → sigma → ℚ × sigma
  /-- rng.binomial(1, p): one draw that is 0 or 1. -/
  berStep : ℚ → sigma → Nat × sigma
  /-- rng.choice over k options (with or without weights): one index draw below k. -/
  choiceStep : Nat → sigma → Nat × sigma
  /-- np.exp applied to a drawn value (line 69); it is strictly positive. -/
  expVal : ℚ → ℚ

/-- Documented numpy contracts of the draw operations; all claim
theorems about draw-dependent fields assume them. -/
structure RandSpec {sigma : Type} (ops : RandOps sigma) : Prop where
  int_le : ∀ lo hi s, lo < hi → lo ≤ (ops.intStep lo hi s).1
  int_lt : ∀ lo hi s, lo < hi → (ops.intStep lo hi s).1 < hi
  unif_le : ∀ a b s, a < b → a ≤ (ops.unifStep a b s).1
  unif_lt : ∀ a b s, a < b → (ops.unifStep a b s).1 < b
  beta_nonneg : ∀ a b s, 0 ≤ (ops.betaStep a b s).1
  beta_le_one : ∀ a b s, (ops.betaStep a b s).1 ≤ 1
  ber_mem : ∀ p s, (ops.berStep p s).1 = 0 ∨ (ops.berStep p s).1 = 1
  choice_lt : ∀ k s, 0 < k → (ops.choiceStep k s).1 < k
  exp_pos : ∀ q, 0 < ops.expVal q

/-- Vectorized draw of a given size: the single-draw step applied
size-many times, threading the state left to right. -/
def drawVec {sigma alpha : Type} (step : sigma → alpha × sigma) :
    Nat → sigma → List alpha × sigma
  | 0, s => ([], s)
  | k + 1, s =>
      let a := step s
      let r := drawVec step k a.2
      (a.1 :: r.1, r.2)

/-- The fixed reference date datetime(2025, 1, 1) of line 31, as day number 0. -/
def today : Int := 0

/-- Row-wise select of a segment-matched value from three full-length
vectors, as done by the boolean-mask assignments on lines 50-53 and
60-63 of the source. -/
def selectBySeg : List Segment → List ℚ → List ℚ → List ℚ → List ℚ
  | [], _, _, _ => []
  | g :: gs, ra, rb, rc =>
      (match g with
        | Segment.Retail => ra.headD 0
        | Segment.SME => rb.headD 0
        | Segment.Corporate => rc.headD 0) :: selectBySeg gs ra.tail rb.tail rc.tail

/-- Masked compacted assignment of lines 76-78: each segment's rows
receive, in row order, the entries of that segment's drawn vector.  The
fallback value 0 is used when a vector is exhausted; with the vector
lengths produced by the generator (one entry per matching row) the
fallback is never reached. -/
def assignBySeg : List Segment → List ℚ → List ℚ → List ℚ → List ℚ
  | [], _, _, _ => []
  | Segment.Retail :: gs, rs, ss, cs => rs.headD 0 :: assignBySeg gs rs.tail ss cs
  | Segment.SME :: gs, rs, ss, cs => ss.headD 0 :: assignBySeg gs rs ss.tail cs
  | Segment.Corporate :: gs, rs, ss, cs => cs.headD 0 :: assignBySeg gs rs ss cs.tail

/-- Masked compacted assignment of lines 110-112: rows flagged 1
receive the defaulted draws in order, rows flagged 0 the non-defaulted
draws, and any other flag keeps the initial zero. -/
def assignTwoMasks : List Nat → List Int → List Int → List Int
  | [], _, _ => []
  | f :: fs, v1, v0 =>
      if f = 1 then v1.headD 0 :: assignTwoMasks fs v1.tail v0
      else if f = 0 then v0.headD 0 :: assignTwoMasks fs v1 v0.tail
      else 0 :: assignTwoMasks fs v1 v0

/-- rng.binomial(1, pd_1y) of line 89: one Bernoulli draw per row with
that row's probability of default. -/
def bernoulliVec {sigma : Type} (ops : RandOps sigma) :
    List ℚ → sigma → List Nat × sigma
  | [], s => ([], s)
  | p :: ps, s =>
      let b := ops.berStep p s
      let r := bernoulliVec ops ps b.2
      (b.1 :: r.1, r.2)

/-- The default-date loop of lines 92-104: rows are visited in index
order; a row flagged as defaulted with a positive day window from
origination to min(today, maturity) consumes one scalar
rng.integers(0, delta_days + 1) draw and gets origination plus that
offset; every other row keeps NaT (none). -/
def defaultDates {sigma : Type} (ops : RandOps sigma) :
    List Nat → List Int → List Int → sigma → List (Option Int) × sigma
  | [], _, _, s => ([], s)
  | d :: ds, ods, mds, s =>
      let od := ods.headD 0
      let md := mds.headD 0
      if d = 1 then
        if min today md ≤ od then
          let r := defaultDates ops ds ods.tail mds.tail s
          (none :: r.1, r.2)
        else
          let o := ops.intStep 0 (min today md - od + 1) s
          let r := defaultDates ops ds ods.tail mds.tail o.2
          (some (od + o.1) :: r.1, r.2)
      else
        let r := defaultDates ops ds ods.tail mds.tail s
        (none :: r.1, r.2)

/-- Vectorized rng.integers(low, high, size) with numpy's validation
order from numpy/random/_bounded_integers.pyx.in: an empty size returns
an empty array before any bound is looked at; otherwise low >= high is
a ValueError raised before any randomness is consumed, and a negative
size is a ValueError as well. -/
def npIntegersVec {sigma : Type} (ops : RandOps sigma) (lo hi size : Int) (s : sigma) :
    Except String (List Int × sigma) :=
  if size = 0 then Except.ok ([], s)
  else if hi ≤ lo then Except.error "low >= high"
  else if size < 0 then Except.error "negative dimensions are not allowed"
  else Except.ok (drawVec (ops.intStep lo hi) size.toNat s)

/-- pd.cut(pd_1y, bins=[0.0, 0.005, 0.01, 0.02, 0.05, 1.0],
labels=["AAA", "AA", "A", "BBB", "BB/B"], include_lowest=True) of
lines 119-121.  pd.cut uses right-closed intervals by default, and
include_lowest also closes the lowest boundary, so the buckets are
[0, 0.005], (0.005, 0.01], (0.01, 0.02], (0.02, 0.05], (0.05, 1];
values outside [0, 1] are not binned (none). -/
def internalRatingOf (p : ℚ) : Option String :=
  if p < 0 then none
  else if p ≤ 1/200 then some "AAA"
  else if p ≤ 1/100 then some "AA"
  else if p ≤ 1/50 then some "A"
  else if p ≤ 1/20 then some "BBB"
  else if p ≤ 1 then some "BB/B"
  else none

/-- Rating table as claim C3 states it (each interval closed on the
left and open on the right, lowest boundary inclusive); kept separate
from `internalRatingOf`, which embeds the source, so the two can be
compared. -/
def specRatingOf (p : ℚ) : Option String :=
  if p < 0 then none
  else if p < 1/200 then some "AAA"
  else if p < 1/100 then some "AA"
  else if p < 1/50 then some "A"
  else if p < 1/20 then some "BBB"
  else if p ≤ 1 then some "BB/B"
  else none

/-- One row of the generated DataFrame (lines 124-145).  Dates are day
numbers relative to `today`; `ltv` and `default_date` are optional as
in the source (NaN / NaT when absent).  `has_collateral` additionally
records the internal per-row draw of line 72, which the source uses to
derive `collateral_value` but does not place in the DataFrame. -/
structure LoanRecord where
  loan_id : Int
  borrower_id : Int
  segment : Segment
  country : Country
  origination_date : Int
  maturity_date : Int
  currency : Currency
  interest_rate : ℚ
  pd_1y : ℚ
  lgd : ℚ
  ead : ℚ
  has_collateral : Nat
  collateral_value : ℚ
  ltv : Option ℚ
  is_default : Nat
  default_date : Option Int
  days_past_due : Int
  provision_amount : ℚ
  internal_rating : Option String
deriving DecidableEq

/-- All column lists drawn or derived by the generator before the
DataFrame is assembled. -/
structure Cols where
  borrower : List Int
  segment : List Segment
  country : List Country
  origination : List Int
  matYears : List Int
  maturity : List Int
  currency : List Currency
  spreadSel : List ℚ
  pdSel : List ℚ
  lgd : List ℚ
  ead : List ℚ
  hasColl : List Nat
  ltvTarget : List ℚ
  isDef : List Nat
  defDates : List (Option Int)
  dpd : List Int
  noise : List ℚ
deriving DecidableEq

/-- Row i of the DataFrame, assembled from the i-th entry of every
column (lines 124-145).  Elementwise derivations of the source are
computed in place: interest_rate = base 2 percent plus the selected
spread (lines 50-53), collateral_value = ead / ltv_target on
collateralized rows and 0 otherwise (lines 80-81), ltv = ead /
collateral_value when collateral_value is positive and missing
otherwise (lines 84-86), provision_amount = pd_1y * lgd * ead times the
drawn noise (lines 115-116), internal_rating from pd_1y
(lines 119-121), loan_id from np.arange(1, n_loans + 1) (line 20). -/
def mkRow (c : Cols) (i : Nat) : LoanRecord :=
  let e := c.ead.getD i 0
  let h := c.hasColl.getD i 0
  let t := c.ltvTarget.getD i 0
  let coll := if h = 1 then e / t else 0
  let p := c.pdSel.getD i 0
  let l := c.lgd.getD i 0
  { loan_id := (i : Int) + 1
    borrower_id := c.borrower.getD i 0
    segment := c.segment.getD i Segment.Retail
    country := c.country.getD i Country.DE
    origination_date := c.origination.getD i 0
    maturity_date := c.maturity.getD i 0
    currency := c.currency.getD i Currency.EUR
    interest_rate := 2/100 + c.spreadSel.getD i 0
    pd_1y := p
    lgd := l
    ead := e
    has_collateral := h
    collateral_value := coll
    ltv := if 0 < coll then some (e / coll) else none
    is_default := c.isDef.getD i 0
    default_date := c.defDates.getD i none
    days_past_due := c.dpd.getD i 0
    provision_amount := p * l * e * c.noise.getD i 0
    internal_rating := internalRatingOf p }

/-- Index to segment, matching the array ["Retail", "SME", "Corporate"]. -/
def segOfIdx : Nat → Segment
  | 0 => Segment.Retail
  | 1 => Segment.SME
  | _ => Segment.Corporate

/-- Index to country, matching the array ["DE", "FR", "IT", "ES", "NL"]. -/
def ctyOfIdx : Nat → Country
  | 0 => Country.DE
  | 1 => Country.FR
  | 2 => Country.IT
  | 3 => Country.ES
  | _ => Country.NL

/-- Index to currency, matching the array ["EUR", "USD", "GBP"]. -/
def curOfIdx : Nat → Currency
  | 0 => Currency.EUR
  | 1 => Currency.USD
  | _ => Currency.GBP

/-- All draws of lines 23-121 after the borrower draw, in the exact
order the source consumes the random stream: segment (25), country
(28), origination offsets over 5 * 365 days (32), maturity offsets of
1 to 9 whole years (35), currency (42), the three spread vectors
(46-48), the three beta PD vectors (56-58), lgd (66), the normal
exponand of ead (69), has_collateral (72), the three segment-counted
ltv target vectors (76-78), the Bernoulli default flags (89), the
default-date loop (92-104), days past due for defaulted then
non-defaulted rows (110-112), and the provision noise (116). -/
def buildCols {sigma : Type} (ops : RandOps sigma) (nn : Nat) (borrower : List Int)
    (s1 : sigma) : Cols :=
  let rSeg := drawVec (ops.choiceStep 3) nn s1
  let segment := rSeg.1.map segOfIdx
  let rCty := drawVec (ops.choiceStep 5) nn rSeg.2
  let rOrig := drawVec (ops.intStep 0 1825) nn rCty.2
  let origination := rOrig.1.map (fun d => today - d)
  let rMat := drawVec (ops.intStep 1 10) nn rOrig.2
  let maturity := List.zipWith (fun od y => od + 365 * y) origination rMat.1
  let rCur := drawVec (ops.choiceStep 3) nn rMat.2
  let rSpR := drawVec (ops.normStep (2/100) (5/1000)) nn rCur.2
  let rSpS := drawVec (ops.normStep (3/100) (7/1000)) nn rSpR.2
  let rSpC := drawVec (ops.normStep (15/1000) (4/1000)) nn rSpS.2
  let rPdR := drawVec (ops.betaStep (3/2) 40) nn rSpC.2
  let rPdS := drawVec (ops.betaStep 2 25) nn rPdR.2
  let rPdC := drawVec (ops.betaStep (6/5) 35) nn rPdS.2
  let rLgd := drawVec (ops.unifStep (1/5) (7/10)) nn rPdC.2
  let rEad := drawVec (ops.normStep 10 1) nn rLgd.2
  let rHas := drawVec (ops.choiceStep 2) nn rEad.2
  let rTgR := drawVec (ops.unifStep (3/10) (4/5)) (segment.count Segment.Retail) rHas.2
  let rTgS := drawVec (ops.unifStep (2/5) (9/10)) (segment.count Segment.SME) rTgR.2
  let rTgC := drawVec (ops.unifStep (1/5) (9/10)) (segment.count Segment.Corporate) rTgS.2
  let pdSel := selectBySeg segment rPdR.1 rPdS.1 rPdC.1
  let rDef := bernoulliVec ops pdSel rTgC.2
  let rDD := defaultDates ops rDef.1 origination maturity rDef.2
  let rDpdD := drawVec (ops.intStep 90 361) (rDef.1.count 1) rDD.2
  let rDpdN := drawVec (ops.intStep 0 30) (rDef.1.count 0) rDpdD.2
  let rNoise := drawVec (ops.unifStep (4/5) (6/5)) nn rDpdN.2
  { borrower := borrower
    segment := segment
    country := rCty.1.map ctyOfIdx
    origination := origination
    matYears := rMat.1
    maturity := maturity
    currency := rCur.1.map curOfIdx
    spreadSel := selectBySeg segment rSpR.1 rSpS.1 rSpC.1
    pdSel := pdSel
    lgd := rLgd.1
    ead := rEad.1.map ops.expVal
    hasColl := rHas.1
    ltvTarget := assignBySeg segment rTgR.1 rTgS.1 rTgC.1
    isDef := rDef.1
    defDates := rDD.1
    dpd := assignTwoMasks rDef.1 rDpdD.1 rDpdN.1
    noise := rNoise.1 }

/-- Per-row properties of the generated columns that the claims rely
on, for a portfolio of nn rows: how maturity is derived from
origination (lines 35-38), the 1..9 year range of the maturity offset,
positivity of ead (line 69), the segment-specific ltv target ranges
(lines 76-78), and the characterization of the default-date loop
(lines 92-104). -/
structure ColsOK (nn : Nat) (c : Cols) : Prop where
  mat_eq : ∀ i, i < nn →
    c.maturity.getD i 0 = c.origination.getD i 0 + 365 * c.matYears.getD i 0
  maty_mem : ∀ i, i < nn → 1 ≤ c.matYears.getD i 0 ∧ c.matYears.getD i 0 ≤ 9
  ead_pos : ∀ i, i < nn → 0 < c.ead.getD i 0
  tgt_mem : ∀ i, i < nn →
    (c.segment.getD i Segment.Retail = Segment.Retail →
      3/10 ≤ c.ltvTarget.getD i 0 ∧ c.ltvTarget.getD i 0 < 4/5) ∧
    (c.segment.getD i Segment.Retail = Segment.SME →
      2/5 ≤ c.ltvTarget.getD i 0 ∧ c.ltvTarget.getD i 0 < 9/10) ∧
    (c.segment.getD i Segment.Retail = Segment.Corporate →
      1/5 ≤ c.ltvTarget.getD i 0 ∧ c.ltvTarget.getD i 0 < 9/10)
  dd_some : ∀ i, i < nn → c.isDef.getD i 0 = 1 →
    c.origination.getD i 0 < min today (c.maturity.getD i 0) →
    ∃ off : Int, 0 ≤ off ∧
      off ≤ min today (c.maturity.getD i 0) - c.origination.getD i 0 ∧
      c.defDates.getD i none = some (c.origination.getD i 0 + off)
  dd_none : ∀ i, i < nn →
    ¬(c.isDef.getD i 0 = 1 ∧
        c.origination.getD i 0 < min today (c.maturity.getD i 0)) →
    c.defDates.getD i none = none

/-- The generated dataset: its ordered column headers and its rows. -/
structure Portfolio where
  columns : List String
  rows : List LoanRecord
deriving DecidableEq

/-- The DataFrame column headers, in the construction order of
lines 126-143. -/
def portfolioColumns : List String :=
  ["loan_id", "borrower_id", "segment", "country", "origination_date",
   "maturity_date", "currency", "interest_rate", "pd_1y", "lgd", "ead",
   "collateral_value", "ltv", "is_default", "default_date",
   "days_past_due", "provision_amount", "internal_rating"]

/-- Embedding of generate_loan_portfolio (lines 11-151).  The borrower
draw rng.integers(1, n_loans // 2 + 1, size=n_loans) of line 21 is the
first consumption of the stream and the only call whose numpy bound
validation can fail; every later rng call has statically valid bounds
(its sizes are the nonnegative mask counts and its scalar default-date
bounds are validated by the positive-window test), so the remaining
columns are built totally.  Python floor division is Int.ediv. -/
def generate_loan_portfolio {sigma : Type} (ops : RandOps sigma) (nLoans : Int)
    (seed : Int) : Except String Portfolio :=
  let s0 := ops.init seed
  match npIntegersVec ops 1 (Int.ediv nLoans 2 + 1) nLoans s0 with
  | Except.error e => Except.error e
  | Except.ok br =>
      let c := buildCols ops nLoans.toNat br.1 br.2
      Except.ok { columns := portfolioColumns,
                  rows := (List.range nLoans.toNat).map (mkRow c) }

/-- Concrete executable draw source used to witness the claim theorems:
every draw returns the least value its numpy contract allows and ticks
a counter state. -/
def detOps : RandOps Nat where
  init := fun _ => 0
  intStep := fun lo _ s => (lo, s + 1)
  unifStep := fun a _ s => (a, s + 1)
  normStep := fun mu _ s => (mu, s + 1)
  betaStep := fun _ _ s => (0, s + 1)
  berStep := fun _ s => (0, s + 1)
  choiceStep := fun _ s => (0, s + 1)
  expVal := fun _ => 1

/-- Variant of `detOps` whose choice draws return the greatest index,
so every loan is Corporate and collateralized. -/
def collOps : RandOps Nat :=
  { detOps with choiceStep := fun k s => (k - 1, s + 1) }

/-- Variant of `detOps` whose beta draws return exactly 0.005, placing
pd_1y on the first rating boundary. -/
def cexOps : RandOps Nat :=
  { detOps with betaStep := fun _ _ s => (1/200, s + 1) }

/-- Placeholder row used as a getD default when indexing rows. -/
def defaultRow : LoanRecord :=
  { loan_id := 0
    borrower_id := 0
    segment := Segment.Retail
    country := Country.DE
    origination_date := 0
    maturity_date := 0
    currency := Currency.EUR
    interest_rate := 0
    pd_1y := 0
    lgd := 0
    ead := 0
    has_collateral := 0
    collateral_value := 0
    ltv := none
    is_default := 0
    default_date := none
    days_past_due := 0
    provision_amount := 0
    internal_rating := none }

/-- Concrete two-loan portfolio generated with `detOps`. -/
def detP : Portfolio :=
  ((generate_loan_portfolio detOps 2 0).toOption).getD { columns := [], rows := [] }

/-- First row of `detP`. -/
def detRow : LoanRecord := detP.rows.getD 0 defaultRow

/-- Concrete two-loan portfolio generated with `collOps`. -/
def collP : Portfolio :=
  ((generate_loan_portfolio collOps 2 0).toOption).getD { columns := [], rows := [] }

/-- First row of `collP`. -/
def collRow : LoanRecord := collP.rows.getD 0 defaultRow

/-- Concrete two-loan portfolio generated with `cexOps`. -/
def cexP : Portfolio :=
  ((generate_loan_portfolio cexOps 2 0).toOption).getD { columns := [], rows := [] }

/-- First row of `cexP`. -/
def cexRow : LoanRecord := cexP.rows.getD 0 defaultRow

/-! Helper lemmas about the list plumbing of the embedding. -/

/-- headD is getD at index 0. -/
theorem headD_eq_getD {alpha : Type} (l : List alpha) (d : alpha) :
    l.headD d = l.getD 0 d := by
  cases l <;> rfl

/-- getD after tail shifts the index by one. -/
theorem tail_getD {alpha : Type} (l : List alpha) (i : Nat) (d : alpha) :
    l.tail.getD i d = l.getD (i + 1) d := by
  cases l <;> rfl

/-- getD through map, for indices in range. -/
theorem getD_map_of_lt {alpha beta : Type} (f : alpha → beta) :
    ∀ (l : List alpha) (i : Nat) (da : alpha) (db : beta), i < l.length →
      (l.map f).getD i db = f (l.getD i da)
  | [], i, _, _, h => absurd h (by simp)
  | a :: l, 0, _, _, _ => rfl
  | a :: l, i + 1, da, db, h => by
      simp only [List.map_cons, List.getD_cons_succ]
      exact getD_map_of_lt f l i da db (by simpa using h)

/-- getD through zipWith, for indices in range of both lists. -/
theorem getD_zipWith_of_lt {alpha beta gamma : Type} (f : alpha → beta → gamma) :
    ∀ (la : List alpha) (lb : List beta) (i : Nat) (da : alpha) (db : beta) (dc : gamma),
      i < la.length → i < lb.length →
      (List.zipWith f la lb).getD i dc = f (la.getD i da) (lb.getD i db)
  | [], _, i, _, _, _, ha, _ => absurd ha (by simp)
  | _ :: _, [], i, _, _, _, _, hb => absurd hb (by simp)
  | a :: la, b :: lb, 0, _, _, _, _, _ => rfl
  | a :: la, b :: lb, i + 1, da, db, dc, ha, hb => by
      simp only [List.zipWith_cons_cons, List.getD_cons_succ]
      exact getD_zipWith_of_lt f la lb i da db dc (by simpa using ha) (by simpa using hb)

/-- getD at an in-range index is a member of the list. -/
theorem getD_mem_of_lt {alpha : Type} :
    ∀ (l : List alpha) (i : Nat) (d : alpha), i < l.length → l.getD i d ∈ l
  | [], i, _, h => absurd h (by simp)
  | a :: l, 0, _, _ => List.mem_cons_self a l
  | a :: l, i + 1, d, h =>
      List.mem_cons_of_mem a (getD_mem_of_lt l i d (by simpa using h))

/-- A vectorized draw has the requested size. -/
theorem drawVec_length {sigma alpha : Type} (step : sigma → alpha × sigma) :
    ∀ (k : Nat) (s : sigma), ((drawVec step k s).1).length = k
  | 0, _ => rfl
  | k + 1, s => by
      simp only [drawVec, List.length_cons]
      exact congrArg (· + 1) (drawVec_length step k (step s).2)

/-- Every element of a vectorized draw satisfies any property satisfied
by every single draw. -/
theorem drawVec_forall {sigma alpha : Type} (step : sigma → alpha × sigma)
    {P : alpha → Prop} (hstep : ∀ s, P (step s).1) :
    ∀ (k : Nat) (s : sigma), ∀ x ∈ (drawVec step k s).1, P x
  | 0, _ => by simp [drawVec]
  | k + 1, s => by
      intro x hx
      simp only [drawVec] at hx
      rcases List.mem_cons.mp hx with h | h
      · exact h ▸ hstep s
      · exact drawVec_forall step hstep k (step s).2 x h

/-- Segment-wise selection preserves the row count. -/
theorem selectBySeg_length :
    ∀ (gs : List Segment) (ra rb rc : List ℚ),
      (selectBySeg gs ra rb rc).length = gs.length
  | [], _, _, _ => rfl
  | g :: gs, ra, rb, rc => by
      simp only [selectBySeg, List.length_cons]
      exact congrArg (· + 1) (selectBySeg_length gs ra.tail rb.tail rc.tail)

/-- The Bernoulli vector has one entry per probability. -/
theorem bernoulliVec_length {sigma : Type} (ops : RandOps sigma) :
    ∀ (ps : List ℚ) (s : sigma), ((bernoulliVec ops ps s).1).length = ps.length
  | [], _ => rfl
  | p :: ps, s => by
      simp only [bernoulliVec, List.length_cons]
      exact congrArg (· + 1) (bernoulliVec_length ops ps (ops.berStep p s).2)

/-- Characterization of the masked segment assignment of lines 76-78:
when each segment's vector has exactly one entry per matching row and
all entries of a vector satisfy that segment's property, then the value
assigned to row i satisfies the property of row i's segment. -/
theorem assignBySeg_prop {P Q R : ℚ → Prop} :
    ∀ (gs : List Segment) (rs ss cs : List ℚ),
      rs.length = gs.count Segment.Retail →
      ss.length = gs.count Segment.SME →
      cs.length = gs.count Segment.Corporate →
      (∀ x ∈ rs, P x) → (∀ x ∈ ss, Q x) → (∀ x ∈ cs, R x) →
      ∀ i, i < gs.length →
        (gs.getD i Segment.Retail = Segment.Retail →
          P ((assignBySeg gs rs ss cs).getD i 0)) ∧
        (gs.getD i Segment.Retail = Segment.SME →
          Q ((assignBySeg gs rs ss cs).getD i 0)) ∧
        (gs.getD i Segment.Retail = Segment.Corporate →
          R ((assignBySeg gs rs ss cs).getD i 0)) := by
  intro gs
  induction gs with
  | nil => intro rs ss cs _ _ _ _ _ _ i hi; exact absurd hi (by simp)
  | cons g gs ih =>
      intro rs ss cs hr hsm hc pr pq prr i hi
      cases g with
      | Retail =>
          rw [List.count_cons_self] at hr
          rw [List.count_cons_of_ne (by decide)] at hsm
          rw [List.count_cons_of_ne (by decide)] at hc
          cases rs with
          | nil => simp at hr
          | cons x rs2 =>
              cases i with
              | zero =>
                  simp only [List.getD_cons_zero]
                  refine ⟨fun _ => ?_, fun h => absurd h (by decide),
                    fun h => absurd h (by decide)⟩
                  simpa [assignBySeg] using pr x (List.mem_cons_self x rs2)
              | succ j =>
                  simp only [assignBySeg, List.headD_cons, List.tail_cons,
                    List.getD_cons_succ]
                  exact ih rs2 ss cs (by simpa using hr) hsm hc
                    (fun y hy => pr y (List.mem_cons_of_mem x hy)) pq prr j
                    (by simpa using hi)
      | SME =>
          rw [List.count_cons_of_ne (by decide)] at hr
          rw [List.count_cons_self] at hsm
          rw [List.count_cons_of_ne (by decide)] at hc
          cases ss with
          | nil => simp at hsm
          | cons x ss2 =>
              cases i with
              | zero =>
                  simp only [List.getD_cons_zero]
                  refine ⟨fun h => absurd h (by decide), fun _ => ?_,
                    fun h => absurd h (by decide)⟩
                  simpa [assignBySeg] using pq x (List.mem_cons_self x ss2)
              | succ j =>
                  simp only [assignBySeg, List.headD_cons, List.tail_cons,
                    List.getD_cons_succ]
                  exact ih rs ss2 cs hr (by simpa using hsm) hc pr
                    (fun y hy => pq y (List.mem_cons_of_mem x hy)) prr j
                    (by simpa using hi)
      | Corporate =>
          rw [List.count_cons_of_ne (by decide)] at hr
          rw [List.count_cons_of_ne (by decide)] at hsm
          rw [List.count_cons_self] at hc
          cases cs with
          | nil => simp at hc
          | cons x cs2 =>
              cases i with
              | zero =>
                  simp only [List.getD_cons_zero]
                  refine ⟨fun h => absurd h (by decide), fun h => absurd h (by decide),
                    fun _ => ?_⟩
                  simpa [assignBySeg] using prr x (List.mem_cons_self x cs2)
              | succ j =>
                  simp only [assignBySeg, List.headD_cons, List.tail_cons,
                    List.getD_cons_succ]
                  exact ih rs ss cs2 hr hsm (by simpa using hc) pr pq
                    (fun y hy => prr y (List.mem_cons_of_mem x hy)) j
                    (by simpa using hi)

/-- Characterization of the default-date loop of lines 92-104: row i
gets some origination-plus-offset date, with the offset drawn inside
the inclusive day window, exactly when row i is flagged defaulted and
the window from origination to min(today, maturity) has positive
length; otherwise row i stays missing. -/
theorem defaultDates_prop {sigma : Type} (ops : RandOps sigma) (hs : RandSpec ops) :
    ∀ (ds : List Nat) (ods mds : List Int) (s : sigma) (i : Nat), i < ds.length →
      ((ds.getD i 0 = 1 ∧ ods.getD i 0 < min today (mds.getD i 0)) →
        ∃ off : Int, 0 ≤ off ∧
          off ≤ min today (mds.getD i 0) - ods.getD i 0 ∧
          (defaultDates ops ds ods mds s).1.getD i none = some (ods.getD i 0 + off)) ∧
      (¬(ds.getD i 0 = 1 ∧ ods.getD i 0 < min today (mds.getD i 0)) →
        (defaultDates ops ds ods mds s).1.getD i none = none) := by
  intro ds
  induction ds with
  | nil => intro ods mds s i hi; exact absurd hi (by simp)
  | cons d ds ih =>
      intro ods mds s i hi
      cases i with
      | zero =>
          simp only [defaultDates, headD_eq_getD, List.getD_cons_zero]
          split_ifs with hd hw
          · exact ⟨fun hcond => absurd hcond.2 (not_lt.mpr hw), fun _ => by simp⟩
          · refine ⟨fun _ => ?_, fun hcond => absurd ⟨hd, not_le.mp hw⟩ hcond⟩
            have hlt : (0:Int) < min today (mds.getD 0 0) - ods.getD 0 0 + 1 := by
              have h2 := not_le.mp hw
              omega
            refine ⟨(ops.intStep 0 (min today (mds.getD 0 0) - ods.getD 0 0 + 1) s).1,
              hs.int_le 0 _ s hlt, ?_, by simp⟩
            have h3 := hs.int_lt 0 _ s hlt
            omega
          · exact ⟨fun hcond => absurd hcond.1 hd, fun _ => by simp⟩
      | succ j =>
          have hj : j < ds.length := by simpa using hi
          simp only [defaultDates, headD_eq_getD]
          split_ifs with hd hw
          · simp only [List.getD_cons_succ, ← tail_getD]
            exact ih ods.tail mds.tail s j hj
          · simp only [List.getD_cons_succ, ← tail_getD]
            exact ih ods.tail mds.tail
              (ops.intStep 0 (min today (mds.getD 0 0) - ods.getD 0 0 + 1) s).2 j hj
          · simp only [List.getD_cons_succ, ← tail_getD]
            exact ih ods.tail mds.tail s j hj

/-- Bounds of a single entry of a vectorized rng.integers draw. -/
theorem drawVec_getD_bounds {sigma : Type} (ops : RandOps sigma) (hs : RandSpec ops)
    (lo hi : Int) (hlh : lo < hi) (k : Nat) (s : sigma) (i : Nat) (d : Int)
    (hik : i < k) :
    lo ≤ (drawVec (ops.intStep lo hi) k s).1.getD i d ∧
      (drawVec (ops.intStep lo hi) k s).1.getD i d < hi := by
  have hmem : (drawVec (ops.intStep lo hi) k s).1.getD i d ∈
      (drawVec (ops.intStep lo hi) k s).1 :=
    getD_mem_of_lt _ i d (by rw [drawVec_length]; exact hik)
  exact drawVec_forall (ops.intStep lo hi) (P := fun y => lo ≤ y ∧ y < hi)
    (fun s2 => ⟨hs.int_le lo hi s2 hlh, hs.int_lt lo hi s2 hlh⟩) k s _ hmem

/-- The columns built by `buildCols` satisfy every per-row property the
claims rely on, for any state, row count and borrower vector, assuming
the numpy draw contracts. -/
theorem buildCols_ok {sigma : Type} (ops : RandOps sigma) (hs : RandSpec ops)
    (nn : Nat) (b : List Int) (s : sigma) : ColsOK nn (buildCols ops nn b s) := by
  constructor
  · -- maturity = origination + 365 * maturity offset years (lines 36-38)
    intro i hi
    simp only [buildCols]
    exact getD_zipWith_of_lt (fun od y => od + 365 * y) _ _ i 0 0 0
      (by simpa [List.length_map, drawVec_length] using hi)
      (by simpa [drawVec_length] using hi)
  · -- maturity offset years lie in 1..9 (line 35)
    intro i hi
    simp only [buildCols]
    exact And.imp (fun h => h) (fun h => by omega)
      (drawVec_getD_bounds ops hs 1 10 (by decide) nn _ i 0 hi)
  · -- ead is a positive exponential (line 69)
    intro i hi
    simp only [buildCols]
    rw [getD_map_of_lt ops.expVal _ i 0 0 (by simpa [drawVec_length] using hi)]
    exact hs.exp_pos _
  · -- ltv targets lie in the segment ranges (lines 76-78)
    intro i hi
    simp only [buildCols]
    exact assignBySeg_prop (P := fun x => 3/10 ≤ x ∧ x < 4/5)
      (Q := fun x => 2/5 ≤ x ∧ x < 9/10) (R := fun x => 1/5 ≤ x ∧ x < 9/10)
      _ _ _ _ (drawVec_length _ _ _) (drawVec_length _ _ _) (drawVec_length _ _ _)
      (drawVec_forall _ (fun s2 => ⟨hs.unif_le (3/10) (4/5) s2 (by norm_num),
        hs.unif_lt (3/10) (4/5) s2 (by norm_num)⟩) _ _)
      (drawVec_forall _ (fun s2 => ⟨hs.unif_le (2/5) (9/10) s2 (by norm_num),
        hs.unif_lt (2/5) (9/10) s2 (by norm_num)⟩) _ _)
      (drawVec_forall _ (fun s2 => ⟨hs.unif_le (1/5) (9/10) s2 (by norm_num),
        hs.unif_lt (1/5) (9/10) s2 (by norm_num)⟩) _ _)
      i (by simpa [List.length_map, drawVec_length] using hi)
  · -- a defaulted row with a positive window gets a window-bounded date
    intro i hi h1 h2
    simp only [buildCols] at h1 h2 ⊢
    exact (defaultDates_prop ops hs _ _ _ _ i
      (by rw [bernoulliVec_length, selectBySeg_length, List.length_map,
        drawVec_length]; exact hi)).1 ⟨h1, h2⟩
  · -- every other row keeps a missing default date
    intro i hi h3
    simp only [buildCols] at h3 ⊢
    exact (defaultDates_prop ops hs _ _ _ _ i
      (by rw [bernoulliVec_length, selectBySeg_length, List.length_map,
        drawVec_length]; exact hi)).2 h3

/-- Every successful run of the generator produces the fixed column
headers and rows assembled row-by-row from one set of drawn columns;
assuming the numpy draw contracts, those columns satisfy `ColsOK`. -/
theorem generate_ok_shape {sigma : Type} (ops : RandOps sigma) (n seed : Int)
    (p : Portfolio) (h : generate_loan_portfolio ops n seed = Except.ok p) :
    ∃ c : Cols, p.columns = portfolioColumns ∧
      p.rows = (List.range n.toNat).map (mkRow c) ∧
      (RandSpec ops → ColsOK n.toNat c) := by
  simp only [generate_loan_portfolio] at h
  split at h
  · simp at h
  · next br hbr =>
      injection h with h1
      exact ⟨buildCols ops n.toNat br.1 br.2, by rw [← h1], by rw [← h1],
        fun hsp => buildCols_ok ops hsp n.toNat br.1 br.2⟩

/-- The witness draw source satisfies the numpy contracts. -/
theorem detOpsSpec : RandSpec detOps :=
  ⟨fun lo _ _ _ => le_refl lo, fun _ _ _ h => h, fun a _ _ _ => le_refl a,
   fun _ _ _ h => h, fun _ _ _ => le_refl 0,
   fun _ _ _ => by show (0:ℚ) ≤ 1; norm_num, fun _ _ => Or.inl rfl,
   fun _ _ h => h, fun _ => by show (0:ℚ) < 1; norm_num⟩

/-- The collateralized witness draw source satisfies the numpy contracts. -/
theorem collOpsSpec : RandSpec collOps :=
  ⟨fun lo _ _ _ => le_refl lo, fun _ _ _ h => h, fun a _ _ _ => le_refl a,
   fun _ _ _ h => h, fun _ _ _ => le_refl 0,
   fun _ _ _ => by show (0:ℚ) ≤ 1; norm_num, fun _ _ => Or.inl rfl,
   fun k _ h => Nat.sub_lt h Nat.one_pos, fun _ => by show (0:ℚ) < 1; norm_num⟩

/-! The claim theorems. -/

/-- Claim C1: for a fixed pair of loan count and seed, two calls of the
generator with identical arguments produce identical datasets — every
field of every row, including every random draw through the shared
seeded draw source, is reproduced exactly (determinism as two-run
equality of the embedded function). -/
theorem c1_determinism {sigma : Type} (ops : RandOps sigma)
    (n1 n2 seed1 seed2 : Int) (hn : n1 = n2) (hseed : seed1 = seed2) :
    generate_loan_portfolio ops n1 seed1 = generate_loan_portfolio ops n2 seed2 := by
  rw [hn, hseed]

/-- Witness for C1 at loan count 2 and seed 0. -/
theorem c1_witness :
    generate_loan_portfolio detOps 2 0 = generate_loan_portfolio detOps 2 0 :=
  c1_determinism detOps 2 2 0 0 rfl rfl

/-- Claim C6: a zero loan count yields, for every seed and every draw
source, an empty dataset that still carries the full column header set,
with no error. -/
theorem c6_empty {sigma : Type} (ops : RandOps sigma) (seed : Int) :
    generate_loan_portfolio ops 0 seed =
      Except.ok { columns := portfolioColumns, rows := [] } := rfl

/-- Claim C7: every negative loan count fails with the invalid-argument
bound error of the borrower draw — for every draw source, hence before
any random draw is consumed — and produces no dataset. -/
theorem c7_negative {sigma : Type} (ops : RandOps sigma) (n seed : Int)
    (h : n < 0) :
    generate_loan_portfolio ops n seed = Except.error "low >= high" := by
  have hne : ¬n = 0 := by omega
  have hle : Int.ediv n 2 + 1 ≤ 1 := by
    rw [show Int.ediv n 2 = n / 2 from rfl]
    omega
  simp only [generate_loan_portfolio, npIntegersVec]
  rw [if_neg hne, if_pos hle]

/-- Witness for C7 at loan count -5 and seed 1. -/
theorem c7_witness :
    generate_loan_portfolio detOps (-5) 1 = Except.error "low >= high" :=
  c7_negative detOps (-5) 1 (by decide)

/-- Claim C9: a loan count of exactly 1 makes the borrower draw range
[1, 1 // 2 + 1) = [1, 1) empty, so the generator raises the numpy bound
error instead of returning a one-row dataset, for every seed and draw
source. -/
theorem c9_one_loan {sigma : Type} (ops : RandOps sigma) (seed : Int) :
    generate_loan_portfolio ops 1 seed = Except.error "low >= high" := rfl

/-- Claim C2 (amended): for every loan count at least 2 and every seed,
the generator succeeds with an ordered row sequence of length exactly
the loan count, whose loan ids run sequentially from 1 to the loan
count. -/
theorem c2_length_ids {sigma : Type} (ops : RandOps sigma) (n seed : Int)
    (h2 : 2 ≤ n) :
    ∃ p : Portfolio, generate_loan_portfolio ops n seed = Except.ok p ∧
      (p.rows.length : Int) = n ∧
      ∀ (i : Nat) (hi : i < p.rows.length),
        (p.rows.get ⟨i, hi⟩).loan_id = (i : Int) + 1 := by
  have hne : ¬n = 0 := by omega
  have hlt : ¬(Int.ediv n 2 + 1 ≤ 1) := by
    rw [show Int.ediv n 2 = n / 2 from rfl]
    omega
  have hneg : ¬n < 0 := by omega
  have hgen : generate_loan_portfolio ops n seed =
      Except.ok ⟨portfolioColumns,
        (List.range n.toNat).map (mkRow (buildCols ops n.toNat
          (drawVec (ops.intStep 1 (Int.ediv n 2 + 1)) n.toNat (ops.init seed)).1
          (drawVec (ops.intStep 1 (Int.ediv n 2 + 1)) n.toNat (ops.init seed)).2))⟩ := by
    simp only [generate_loan_portfolio, npIntegersVec]
    rw [if_neg hne, if_neg hlt, if_neg hneg]
  refine ⟨_, hgen, ?_, ?_⟩
  · simp only [List.length_map, List.length_range]
    exact Int.toNat_of_nonneg (by omega)
  · intro i hi
    simp [List.get_eq_getElem, List.getElem_map, List.getElem_range, mkRow]

/-- Counterexample to claim C2 as stated: loan count 1 is a positive
integer, yet the generator raises the numpy bound error and returns no
dataset at all. -/
theorem c2_counterexample :
    generate_loan_portfolio detOps 1 0 = Except.error "low >= high" ∧
      ¬∃ p : Portfolio, generate_loan_portfolio detOps 1 0 = Except.ok p := by
  refine ⟨rfl, ?_⟩
  intro hex
  obtain ⟨p, hp⟩ := hex
  have hcl : (Except.error "low >= high" : Except String Portfolio) =
      Except.ok p := hp
  exact Except.noConfusion hcl

/-- Witness for the amended C2 at loan count 2 and seed 0. -/
theorem c2_witness :
    (2:Int) ≤ 2 ∧
      ∃ p : Portfolio, generate_loan_portfolio detOps 2 0 = Except.ok p ∧
        (p.rows.length : Int) = 2 ∧
        ∀ (i : Nat) (hi : i < p.rows.length),
          (p.rows.get ⟨i, hi⟩).loan_id = (i : Int) + 1 :=
  ⟨by decide, c2_length_ids detOps 2 0 (by decide)⟩

/-- Claim C3 (amended): internal_rating is a pure deterministic
function of pd_1y on every generated row, given by the fixed boundary
table with intervals closed on the right and open on the left, lowest
boundary inclusive, as pd.cut produces: [0, 0.005] gives AAA,
(0.005, 0.01] gives AA, (0.01, 0.02] gives A, (0.02, 0.05] gives BBB
and (0.05, 1] gives BB/B; in particular 0.003 is rated AAA, 0.03 is
rated BBB and 0.5 is rated BB/B. -/
theorem c3_rating :
    (∀ {sigma : Type} (ops : RandOps sigma) (n seed : Int) (p : Portfolio),
        generate_loan_portfolio ops n seed = Except.ok p →
        ∀ r ∈ p.rows, r.internal_rating = internalRatingOf r.pd_1y) ∧
      (∀ q : ℚ,
        (0 ≤ q → q ≤ 1/200 → internalRatingOf q = some "AAA") ∧
        (1/200 < q → q ≤ 1/100 → internalRatingOf q = some "AA") ∧
        (1/100 < q → q ≤ 1/50 → internalRatingOf q = some "A") ∧
        (1/50 < q → q ≤ 1/20 → internalRatingOf q = some "BBB") ∧
        (1/20 < q → q ≤ 1 → internalRatingOf q = some "BB/B")) ∧
      internalRatingOf (3/1000) = some "AAA" ∧
      internalRatingOf (3/100) = some "BBB" ∧
      internalRatingOf (1/2) = some "BB/B" := by
  refine ⟨?_, ?_, ?_, ?_, ?_⟩
  · intro sigma ops n seed p h r hr
    obtain ⟨c, hcols, hrows, _⟩ := generate_ok_shape ops n seed p h
    rw [hrows] at hr
    obtain ⟨i, hi2, rfl⟩ := List.mem_map.mp hr
    rfl
  · intro q
    refine ⟨?_, ?_, ?_, ?_, ?_⟩
    · intro h0 h1
      simp only [internalRatingOf]
      rw [if_neg (not_lt.mpr h0), if_pos h1]
    · intro h0 h1
      simp only [internalRatingOf]
      rw [if_neg (not_lt.mpr (by linarith)), if_neg (not_le.mpr h0), if_pos h1]
    · intro h0 h1
      simp only [internalRatingOf]
      rw [if_neg (not_lt.mpr (by linarith)), if_neg (not_le.mpr (by linarith)),
        if_neg (not_le.mpr h0), if_pos h1]
    · intro h0 h1
      simp only [internalRatingOf]
      rw [if_neg (not_lt.mpr (by linarith)), if_neg (not_le.mpr (by linarith)),
        if_neg (not_le.mpr (by linarith)), if_neg (not_le.mpr h0), if_pos h1]
    · intro h0 h1
      simp only [internalRatingOf]
      rw [if_neg (not_lt.mpr (by linarith)), if_neg (not_le.mpr (by linarith)),
        if_neg (not_le.mpr (by linarith)), if_neg (not_le.mpr (by linarith)),
        if_neg (not_le.mpr h0), if_pos h1]
  · with_unfolding_all decide
  · with_unfolding_all decide
  · with_unfolding_all decide

/-- Counterexample to claim C3 as stated: a generated row with pd_1y
exactly 0.005 is rated AAA by the code (pd.cut buckets are
right-closed), while the left-closed table of the claim would rate it
AA. -/
theorem c3_counterexample :
    generate_loan_portfolio cexOps 2 0 = Except.ok cexP ∧
      cexRow ∈ cexP.rows ∧
      cexRow.pd_1y = 1/200 ∧
      cexRow.internal_rating = some "AAA" ∧
      specRatingOf cexRow.pd_1y = some "AA" ∧
      ¬cexRow.internal_rating = specRatingOf cexRow.pd_1y :=
  ⟨by with_unfolding_all rfl, by with_unfolding_all decide,
   by with_unfolding_all decide, by with_unfolding_all decide,
   by with_unfolding_all decide, by with_unfolding_all decide⟩

/-- Witness for the amended C3 on a concrete generated row and at the
concrete interior point 0.007 of the AA bucket. -/
theorem c3_witness :
    detRow.internal_rating = internalRatingOf detRow.pd_1y ∧
      internalRatingOf (7/1000) = some "AA" :=
  ⟨c3_rating.1 detOps 2 0 detP (by with_unfolding_all rfl) detRow
      (by with_unfolding_all decide),
   (c3_rating.2.1 (7/1000)).2.1 (by norm_num) (by norm_num)⟩

/-- Claim C5: on every generated row maturity is strictly after
origination, and their difference is exactly 365 * k days for an
integer k between 1 and 9. -/
theorem c5_maturity {sigma : Type} (ops : RandOps sigma) (hs : RandSpec ops)
    (n seed : Int) (p : Portfolio)
    (h : generate_loan_portfolio ops n seed = Except.ok p) :
    ∀ r ∈ p.rows, r.origination_date < r.maturity_date ∧
      ∃ k : Int, 1 ≤ k ∧ k ≤ 9 ∧
        r.maturity_date - r.origination_date = 365 * k := by
  obtain ⟨c, hcols, hrows, hok⟩ := generate_ok_shape ops n seed p h
  have hco := hok hs
  intro r hr
  rw [hrows] at hr
  obtain ⟨i, hi2, rfl⟩ := List.mem_map.mp hr
  have hi : i < n.toNat := List.mem_range.mp hi2
  have hmat : (mkRow c i).maturity_date = c.maturity.getD i 0 := rfl
  have horig : (mkRow c i).origination_date = c.origination.getD i 0 := rfl
  rw [hmat, horig, hco.mat_eq i hi]
  obtain ⟨hk1, hk2⟩ := hco.maty_mem i hi
  constructor
  · omega
  · exact ⟨c.matYears.getD i 0, hk1, hk2, by ring⟩

/-- Witness for C5 on a concrete generated row. -/
theorem c5_witness :
    detRow.origination_date < detRow.maturity_date ∧
      ∃ k : Int, 1 ≤ k ∧ k ≤ 9 ∧
        detRow.maturity_date - detRow.origination_date = 365 * k :=
  c5_maturity detOps detOpsSpec 2 0 detP (by with_unfolding_all rfl) detRow
    (by with_unfolding_all decide)

/-- Claim C4: default_date is present on a generated row exactly when
the row is flagged defaulted and the inclusive day window from
origination to min(reference date, maturity) has positive length; when
present it equals origination plus an integer offset lying inside that
window. -/
theorem c4_default_date {sigma : Type} (ops : RandOps sigma) (hs : RandSpec ops)
    (n seed : Int) (p : Portfolio)
    (h : generate_loan_portfolio ops n seed = Except.ok p) :
    ∀ r ∈ p.rows,
      (¬r.default_date = none ↔
        r.is_default = 1 ∧ r.origination_date < min today r.maturity_date) ∧
      (∀ dd : Int, r.default_date = some dd →
        ∃ off : Int, 0 ≤ off ∧
          off ≤ min today r.maturity_date - r.origination_date ∧
          dd = r.origination_date + off) := by
  obtain ⟨c, hcols, hrows, hok⟩ := generate_ok_shape ops n seed p h
  have hco := hok hs
  intro r hr
  rw [hrows] at hr
  obtain ⟨i, hi2, rfl⟩ := List.mem_map.mp hr
  have hi : i < n.toNat := List.mem_range.mp hi2
  have hdd : (mkRow c i).default_date = c.defDates.getD i none := rfl
  have hisd : (mkRow c i).is_default = c.isDef.getD i 0 := rfl
  have hmat : (mkRow c i).maturity_date = c.maturity.getD i 0 := rfl
  have horig : (mkRow c i).origination_date = c.origination.getD i 0 := rfl
  rw [hdd, hisd, hmat, horig]
  constructor
  · constructor
    · intro hne
      by_contra hcon
      exact hne (hco.dd_none i hi hcon)
    · intro hcond
      obtain ⟨off, _, _, heq⟩ := hco.dd_some i hi hcond.1 hcond.2
      rw [heq]
      simp
  · intro dd hdd2
    by_cases hcond : c.isDef.getD i 0 = 1 ∧
        c.origination.getD i 0 < min today (c.maturity.getD i 0)
    · obtain ⟨off, ho1, ho2, heq⟩ := hco.dd_some i hi hcond.1 hcond.2
      rw [heq] at hdd2
      injection hdd2 with h3
      exact ⟨off, ho1, ho2, h3.symm⟩
    · rw [hco.dd_none i hi hcond] at hdd2
      exact absurd hdd2 (by simp)

/-- Witness for C4 on a concrete generated row. -/
theorem c4_witness :
    (¬detRow.default_date = none ↔
      detRow.is_default = 1 ∧
        detRow.origination_date < min today detRow.maturity_date) ∧
      (∀ dd : Int, detRow.default_date = some dd →
        ∃ off : Int, 0 ≤ off ∧
          off ≤ min today detRow.maturity_date - detRow.origination_date ∧
          dd = detRow.origination_date + off) :=
  c4_default_date detOps detOpsSpec 2 0 detP (by with_unfolding_all rfl) detRow
    (by with_unfolding_all decide)

/-- Claim C8: on every generated row, no collateral means collateral
value 0 and missing ltv, and a positive collateral value means ltv is
exactly ead divided by collateral value (exact in the rational
embedding, hence within any floating-point tolerance). -/
theorem c8_collateral_ltv {sigma : Type} (ops : RandOps sigma) (n seed : Int)
    (p : Portfolio) (h : generate_loan_portfolio ops n seed = Except.ok p) :
    ∀ r ∈ p.rows,
      (r.has_collateral = 0 → r.collateral_value = 0 ∧ r.ltv = none) ∧
      (0 < r.collateral_value → r.ltv = some (r.ead / r.collateral_value)) := by
  obtain ⟨c, hcols, hrows, _⟩ := generate_ok_shape ops n seed p h
  intro r hr
  rw [hrows] at hr
  obtain ⟨i, hi2, rfl⟩ := List.mem_map.mp hr
  constructor
  · intro h0
    have h0c : c.hasColl.getD i 0 = 0 := h0
    constructor
    · show (if c.hasColl.getD i 0 = 1 then
          c.ead.getD i 0 / c.ltvTarget.getD i 0 else 0) = 0
      rw [h0c]
      simp
    · show (if 0 < (if c.hasColl.getD i 0 = 1 then
            c.ead.getD i 0 / c.ltvTarget.getD i 0 else 0) then
          some (c.ead.getD i 0 /
            (if c.hasColl.getD i 0 = 1 then
              c.ead.getD i 0 / c.ltvTarget.getD i 0 else 0))
          else none) = none
      rw [h0c]
      simp
  · intro hpos
    have hposc : 0 < (if c.hasColl.getD i 0 = 1 then
        c.ead.getD i 0 / c.ltvTarget.getD i 0 else 0) := hpos
    show (if 0 < (if c.hasColl.getD i 0 = 1 then
          c.ead.getD i 0 / c.ltvTarget.getD i 0 else 0) then
        some (c.ead.getD i 0 /
          (if c.hasColl.getD i 0 = 1 then
            c.ead.getD i 0 / c.ltvTarget.getD i 0 else 0))
        else none) =
      some ((mkRow c i).ead / (mkRow c i).collateral_value)
    rw [if_pos hposc]
    rfl

/-- Witness for C8 on a concrete generated row. -/
theorem c8_witness :
    (detRow.has_collateral = 0 →
        detRow.collateral_value = 0 ∧ detRow.ltv = none) ∧
      (0 < detRow.collateral_value →
        detRow.ltv = some (detRow.ead / detRow.collateral_value)) :=
  c8_collateral_ltv detOps 2 0 detP (by with_unfolding_all rfl) detRow
    (by with_unfolding_all decide)

/-- Claim C10: on every generated collateralized row the recomputed ltv
round-trips to the drawn segment target (ead divided by ead-over-target
is the target, exactly in the rational embedding), so every present ltv
lies inside the segment target range — within [0.3, 0.8] for Retail,
[0.4, 0.9] for SME, [0.2, 0.9] for Corporate — and never exceeds
0.9. -/
theorem c10_ltv_roundtrip {sigma : Type} (ops : RandOps sigma) (hs : RandSpec ops)
    (n seed : Int) (p : Portfolio)
    (h : generate_loan_portfolio ops n seed = Except.ok p) :
    ∀ r ∈ p.rows, r.has_collateral = 1 →
      ∃ q : ℚ, r.ltv = some q ∧
        (r.segment = Segment.Retail → 3/10 ≤ q ∧ q ≤ 4/5) ∧
        (r.segment = Segment.SME → 2/5 ≤ q ∧ q ≤ 9/10) ∧
        (r.segment = Segment.Corporate → 1/5 ≤ q ∧ q ≤ 9/10) ∧
        q ≤ 9/10 := by
  obtain ⟨c, hcols, hrows, hok⟩ := generate_ok_shape ops n seed p h
  have hco := hok hs
  intro r hr h1
  rw [hrows] at hr
  obtain ⟨i, hi2, rfl⟩ := List.mem_map.mp hr
  have hi : i < n.toNat := List.mem_range.mp hi2
  have h1c : c.hasColl.getD i 0 = 1 := h1
  have hepos : 0 < c.ead.getD i 0 := hco.ead_pos i hi
  have htgt := hco.tgt_mem i hi
  have hseg : (mkRow c i).segment = c.segment.getD i Segment.Retail := rfl
  have hltv : 0 < c.ltvTarget.getD i 0 →
      (mkRow c i).ltv = some (c.ltvTarget.getD i 0) := by
    intro htp
    have hcoll : 0 < c.ead.getD i 0 / c.ltvTarget.getD i 0 := div_pos hepos htp
    have hcoll2 : (0:ℚ) < (if c.hasColl.getD i 0 = 1 then
        c.ead.getD i 0 / c.ltvTarget.getD i 0 else 0) := by
      rw [h1c]
      simpa using hcoll
    show (if 0 < (if c.hasColl.getD i 0 = 1 then
          c.ead.getD i 0 / c.ltvTarget.getD i 0 else 0) then
        some (c.ead.getD i 0 /
          (if c.hasColl.getD i 0 = 1 then
            c.ead.getD i 0 / c.ltvTarget.getD i 0 else 0))
        else none) = some (c.ltvTarget.getD i 0)
    rw [if_pos hcoll2, h1c]
    have hne : c.ead.getD i 0 ≠ 0 := ne_of_gt hepos
    have htne : c.ltvTarget.getD i 0 ≠ 0 := ne_of_gt htp
    rw [if_pos rfl]
    congr 1
    rw [div_div_eq_mul_div, mul_comm, mul_div_assoc, div_self hne, mul_one]
  cases h3 : c.segment.getD i Segment.Retail with
  | Retail =>
      obtain ⟨hb1, hb2⟩ := htgt.1 h3
      have htp : 0 < c.ltvTarget.getD i 0 := by linarith
      refine ⟨c.ltvTarget.getD i 0, hltv htp, ?_, ?_, ?_, by linarith⟩
      · intro _
        exact ⟨hb1, by linarith⟩
      · intro hcon
        rw [hseg, h3] at hcon
        exact absurd hcon (by decide)
      · intro hcon
        rw [hseg, h3] at hcon
        exact absurd hcon (by decide)
  | SME =>
      obtain ⟨hb1, hb2⟩ := htgt.2.1 h3
      have htp : 0 < c.ltvTarget.getD i 0 := by linarith
      refine ⟨c.ltvTarget.getD i 0, hltv htp, ?_, ?_, ?_, by linarith⟩
      · intro hcon
        rw [hseg, h3] at hcon
        exact absurd hcon (by decide)
      · intro _
        exact ⟨hb1, by linarith⟩
      · intro hcon
        rw [hseg, h3] at hcon
        exact absurd hcon (by decide)
  | Corporate =>
      obtain ⟨hb1, hb2⟩ := htgt.2.2 h3
      have htp : 0 < c.ltvTarget.getD i 0 := by linarith
      refine ⟨c.ltvTarget.getD i 0, hltv htp, ?_, ?_, ?_, by linarith⟩
      · intro hcon
        rw [hseg, h3] at hcon
        exact absurd hcon (by decide)
      · intro hcon
        rw [hseg, h3] at hcon
        exact absurd hcon (by decide)
      · intro _
        exact ⟨hb1, by linarith⟩

/-- Witness for C10 on a concrete generated collateralized row. -/
theorem c10_witness :
    ∃ q : ℚ, collRow.ltv = some q ∧
      (collRow.segment = Segment.Retail → 3/10 ≤ q ∧ q ≤ 4/5) ∧
      (collRow.segment = Segment.SME → 2/5 ≤ q ∧ q ≤ 9/10) ∧
      (collRow.segment = Segment.Corporate → 1/5 ≤ q ∧ q ≤ 9/10) ∧
      q ≤ 9/10 :=
  c10_ltv_roundtrip collOps collOpsSpec 2 0 collP (by with_unfolding_all rfl)
    collRow (by with_unfolding_all decide) (by with_unfolding_all decide)
